import Mathlib

/-!
Verification development for the "where-to-go" recommendation service
(`api/recommend.ts` and the express server variant).  The pure computational
core of each handler is embedded as executable Lean definitions; network
results (POI search, routing durations), the single `Math.random()` draw per
candidate and the floating-point haversine fallback are abstracted as inputs
supplied by an `Env` record.  Exact rational arithmetic stands in for JS
float arithmetic; `Math.round x` is modelled as `⌊x + 1/2⌋`.
-/

/-! ## Generic numeric helpers (`clamp`, `Math.round`, `minutesBetween`) -/

/-- `clamp(n, min, max)` from `recommend.ts`: `Math.max(min, Math.min(max, n))`. -/
def clampNat (n lo hi : Nat) : Nat := max lo (min hi n)

/-- `clamp` over integers (minute arithmetic is integral). -/
def clampZ (n lo hi : ℤ) : ℤ := max lo (min hi n)

/-- `clamp` over rationals (scores and weights). -/
def clampQ (x lo hi : ℚ) : ℚ := max lo (min hi x)

/-!
Score arithmetic is exact rational arithmetic.  `Rat.add`, `Rat.sub`,
`Rat.mul` and `Rat.inv` are `@[irreducible]`, which blocks `decide` on
concrete runs of the pipeline, so the model uses the `mkRat` normal forms
instead; `qadd_eq`, `qsub_eq`, `qmul_eq` and `qdiv_eq` below prove they are
the ordinary field operations of `ℚ`.
-/

/-- Rational addition (`mkRat` form of `a + b`). -/
def qadd (a b : ℚ) : ℚ := mkRat (a.num * b.den + b.num * a.den) (a.den * b.den)

/-- Rational subtraction (`mkRat` form of `a - b`). -/
def qsub (a b : ℚ) : ℚ := mkRat (a.num * b.den - b.num * a.den) (a.den * b.den)

/-- Rational multiplication (`mkRat` form of `a * b`). -/
def qmul (a b : ℚ) : ℚ := mkRat (a.num * b.num) (a.den * b.den)

/-- Rational inverse (`a.den /. a.num`, i.e. `a⁻¹`). -/
def qinv (a : ℚ) : ℚ := Rat.divInt (a.den : ℤ) a.num

/-- Rational division (`a * b⁻¹`). -/
def qdiv (a b : ℚ) : ℚ := qmul a (qinv b)

/-- The integer `n` as a rational. -/
def qOfInt (n : ℤ) : ℚ := mkRat n 1

/-- JS `Math.round x = ⌊x + 0.5⌋` (round half towards +∞), over `ℚ`. -/
def jroundQ (x : ℚ) : ℤ := (qadd x (mkRat 1 2)).floor

/-- `minutesBetween` from `recommend.ts`, on already-parsed minutes of day:
`e >= s ? e - s : 24*60 - s + e` (wraps past midnight). -/
def minutesBetween (s e : Nat) : ℤ :=
  if s ≤ e then (e : ℤ) - (s : ℤ) else 24 * 60 - (s : ℤ) + (e : ℤ)

/-! ## String helpers

`/a|b|c/.test(s)` on the literal alternations used by the source is substring
containment of one of the alternatives, and `normalizeText` is
lowercase + strip whitespace; both are modelled on character lists. -/

/-- `pat` is a prefix of `s` (character lists). -/
def charsStartWith : List Char → List Char → Bool
  | [], _ => true
  | _ :: _, [] => false
  | p :: ps, c :: cs => p == c && charsStartWith ps cs

/-- `hay` contains `pat` as a contiguous substring. -/
def charsContain : List Char → List Char → Bool
  | [], pat => pat.isEmpty
  | c :: rest, pat => charsStartWith pat (c :: rest) || charsContain rest pat

/-- `s.includes(pat)` on strings. -/
def strContains (s pat : String) : Bool := charsContain s.data pat.data

/-- `/p₁|p₂|…/.test(s)`: the regexes of the source are alternations of string
literals, so the test is "contains one of the literals". -/
def strContainsAny (s : String) (pats : List String) : Bool :=
  pats.any (strContains s)

/-- `normalizeText` from `recommend.ts`: lowercase and remove all whitespace
(as a character list; JS `\s` is modelled by `Char.isWhitespace`). -/
def normalizeChars (s : String) : List Char :=
  (s.data.map Char.toLower).filter (fun c => !c.isWhitespace)

/-- First-occurrence deduplication, as `Array.from(new Set(xs))`. -/
def dedupStrAux (seen : List String) : List String → List String
  | [] => []
  | x :: xs => if x ∈ seen then dedupStrAux seen xs else x :: dedupStrAux (x :: seen) xs

/-- Leading and trailing whitespace removed (JS `String.prototype.trim`). -/
def trimChars (cs : List Char) : List Char :=
  ((cs.dropWhile Char.isWhitespace).reverse.dropWhile Char.isWhitespace).reverse

/-- `s.trim()`. -/
def strTrim (s : String) : String := ⟨trimChars s.data⟩

/-- `xs.join(' ')`. -/
def joinSpace : List String → String
  | [] => ""
  | [x] => x
  | x :: xs => x ++ " " ++ joinSpace xs

/-! ## Travel modes -/

/-- `type Mode = 'walk' | 'bike' | 'drive'`. -/
inductive Mode where
  | walk
  | bike
  | drive
deriving DecidableEq, Repr

/-- `metersPerMin` / the per-mode speed constant (85 / 250 / 550 m per minute). -/
def modeSpeed : Mode → Nat
  | .walk => 85
  | .bike => 250
  | .drive => 550

/-- The same speed as a rational (used in score arithmetic). -/
def metersPerMinQ (m : Mode) : ℚ := mkRat (modeSpeed m) 1

/-- `suggestedRadiusMeters` from `recommend.ts`: one-way target =
`clamp(Math.floor(availableMinutes * 0.25), 8, 60)` (for a whole number of
minutes, `Math.floor(m * 0.25) = m / 4` in integer division), times the mode
speed, clamped to `[800, 12000]` meters. -/
def suggestedRadiusMeters (mode : Mode) (availableMinutes : Nat) : Nat :=
  let oneWayMin := clampNat (availableMinutes / 4) 8 60
  let mpm := modeSpeed mode
  clampNat (oneWayMin * mpm) 800 12000

/-! ## Side-quest gate (server variant, `part_004`) -/

/-- `str.split(':')` at character level. -/
def splitOnColon : List Char → List (List Char)
  | [] => [[]]
  | c :: rest =>
    match splitOnColon rest with
    | [] => if c == ':' then [[], []] else [[c]]
    | g :: gs => if c == ':' then [] :: g :: gs else (c :: g) :: gs

/-- `Number(seg)` for a time segment: a non-empty all-digit segment parses as
a decimal number, anything else is `NaN` (and `Number.isFinite` then turns it
into 0 in `hhmmToMin`). -/
def charsToNat? (cs : List Char) : Option Nat :=
  if cs ≠ [] ∧ cs.all Char.isDigit then
    some (cs.foldl (fun a c => a * 10 + (c.toNat - 48)) 0)
  else none

/-- `hhmmToMin` from the server: split on `:`, numeric segments, missing or
non-numeric segments count 0 (`Number.isFinite(h) ? h : 0`). -/
def hhmmToMin (s : String) : Nat :=
  let nums := (splitOnColon s.data).map charsToNat?
  (nums.getD 0 none).getD 0 * 60 + (nums.getD 1 none).getD 0

/-- `DAY_START_MIN = 6 * 60`. -/
def DAY_START_MIN : Nat := 6 * 60

/-- `DAY_END_MIN = 20 * 60`. -/
def DAY_END_MIN : Nat := 20 * 60

/-- `isDaytimeWindow` from the server: windows crossing midnight (`e < s`)
are rejected outright, otherwise the whole window must sit in
`[DAY_START_MIN, DAY_END_MIN]`. -/
def isDaytimeWindow (startTime endTime : String) : Bool :=
  let s := hhmmToMin startTime
  let e := hhmmToMin endTime
  if e < s then false
  else decide (DAY_START_MIN ≤ s) && decide (e ≤ DAY_END_MIN)

/-- Outcome of `POST /api/egg`, restricted to its eligibility decision and the
fixed verification radius it discloses. -/
inductive EggOutcome where
  | ineligible
  | eligible (radiusMeter : Nat)
deriving DecidableEq, Repr

/-- The eligibility gate of `POST /api/egg`: an ineligible window is answered
immediately with `eligible:false`; an eligible one gets
`verify.radiusMeter = 140`. -/
def eggHandler (startTime endTime : String) : EggOutcome :=
  if isDaytimeWindow startTime endTime then .eligible 140 else .ineligible

/-! ## Intent resolver (`recommend.ts`) -/

/-- `heuristicKeywords` from `recommend.ts`: each trigger regex-set that fires
appends its tokens; an unmatched short text (≤ 8 chars) becomes its own
keyword; the result is first-occurrence-deduplicated and capped to 6. -/
def heuristicKeywords (mood : String) : List String :=
  let m := strTrim mood
  if m = "" then []
  else
    let out :=
      (if strContainsAny m ["温泉", "泡汤", "汤泉", "汗蒸"] then ["温泉", "汤泉", "泡汤"] else [])
      ++ (if strContainsAny m ["咖啡", "拿铁", "美式"] then ["咖啡", "咖啡馆"] else [])
      ++ (if strContainsAny m ["夜宵", "宵夜", "烧烤"] then ["夜宵", "烧烤"] else [])
      ++ (if strContainsAny m ["烧烤", "烤串", "烤肉", "撸串", "串串"] then
            ["烧烤", "烤串", "烤肉", "串串香"] else [])
      ++ (if strContainsAny m ["火锅", "涮肉", "涮锅", "麻辣烫", "串串香"] then
            ["火锅", "重庆火锅", "牛肉火锅", "涮肉", "麻辣烫"] else [])
      ++ (if strContainsAny m ["逛街", "商场", "室内"] then ["商场"] else [])
      ++ (if strContains m "江边" then ["江边"] else [])
      ++ (if strContains m "公园" then ["公园"] else [])
      ++ (if strContainsAny m ["散步", "走走"] then ["江边", "公园"] else [])
      ++ (if strContainsAny m ["电影", "电影院"] then ["电影院"] else [])
      ++ (if strContainsAny m ["展", "博物馆", "美术馆", "展馆"] then ["博物馆", "展馆"] else [])
    let out := if out = [] ∧ m.length ≤ 8 then [m] else out
    (dedupStrAux [] out).take 6

/-- The seven primary intents. -/
inductive IntentPrimary where
  | park
  | food
  | shopping
  | culture
  | movie
  | spa
  | other
deriving DecidableEq, Repr

/-- `inferIntentPrimary` from `recommend.ts`: priority-ordered strong
triggers over `mood ++ " " ++ keywords.join(" ")`; the `Bool` is the `strong`
flag. -/
def inferIntentPrimary (mood : String) (intentKeywords : List String) :
    IntentPrimary × Bool :=
  let text := strTrim (mood ++ " " ++ joinSpace intentKeywords)
  if text = "" then (.other, false)
  else if strContainsAny text ["温泉", "泡汤", "汤泉", "汗蒸"] then (.spa, true)
  else if strContainsAny text ["电影", "电影院"] then (.movie, true)
  else if strContainsAny text ["博物馆", "展馆", "美术馆", "展览", "看展"] then (.culture, true)
  else if strContainsAny text ["公园", "景点", "风景", "江边", "散步", "走走", "遛弯", "拍照"] then
    (.park, true)
  else if strContainsAny text ["商场", "逛街", "购物"] then (.shopping, true)
  else if strContainsAny text ["吃", "喝", "咖啡", "甜品", "小吃", "夜宵", "宵夜", "火锅", "烧烤", "烤串", "烤肉"] then
    (.food, true)
  else (.other, false)

/-- `intentMatchScore` from `recommend.ts`: number of intent keywords that
occur (normalized) in `name + " " + address + " " + category`, and the
fraction of keywords hit. -/
def intentMatchScore (keywords : List String) (name address category : String) :
    Nat × ℚ :=
  let kws := (keywords.map strTrim).filter (fun k => k ≠ "")
  if kws = [] then (0, 0)
  else
    let text := normalizeChars (name ++ " " ++ address ++ " " ++ category)
    let hits := (kws.filter (fun kw => charsContain text (normalizeChars kw))).length
    (hits, mkRat hits kws.length)

/-- `str.split(';')` at character level. -/
def splitOnSemi : List Char → List (List Char)
  | [] => [[]]
  | c :: rest =>
    match splitOnSemi rest with
    | [] => if c == ';' then [[], []] else [[c]]
    | g :: gs => if c == ';' then [] :: g :: gs else (c :: g) :: gs

/-- `poiTopType`: first `;`-separated component of the provider type string.
(`String(t).split(';')[0] || ''`.) -/
def poiTopType (typeStr : String) : String :=
  ⟨(splitOnSemi typeStr.data).headD []⟩

/-- `poiAffinity` from `recommend.ts`: signed category-fit score in `[-1, 1]`
between a POI's name/category text and the primary intent. -/
def poiAffinity (primary : IntentPrimary) (name category : String) : ℚ :=
  let top := poiTopType category
  let full := name ++ " " ++ category
  let isFood := top = "餐饮服务"
      ∨ strContainsAny full ["餐饮服务", "小吃", "烧烤", "火锅", "咖啡", "甜品"] = true
  let isPark := strContainsAny full ["公园", "公园广场", "江边", "滨江", "绿地", "湿地"] = true
      ∨ top = "风景名胜"
      ∨ strContainsAny category ["风景名胜", "旅游景点", "公园广场"] = true
  let isShopping := top = "购物服务" ∨ strContainsAny full ["商场", "购物", "步行街"] = true
  let isCulture := top = "科教文化服务"
      ∨ strContainsAny full ["博物馆", "展馆", "美术馆", "图书馆"] = true
  let isMovie := strContains full "电影院" = true
  let isSpa := strContainsAny full ["温泉", "汤泉", "汗蒸", "浴场"] = true
  match primary with
  | .park =>
    if isPark then 1 else if isFood then mkRat (-85) 100
    else if isShopping then mkRat (-40) 100 else mkRat (-15) 100
  | .food =>
    if isFood then 1 else if isPark then mkRat (-20) 100
    else if isCulture then mkRat (-35) 100 else mkRat (-15) 100
  | .shopping =>
    if isShopping then 1 else if isFood then mkRat 10 100
    else if isPark then mkRat (-40) 100 else mkRat (-15) 100
  | .culture =>
    if isCulture then 1 else if isFood then mkRat (-40) 100 else mkRat (-15) 100
  | .movie =>
    if isMovie then 1 else if isFood then mkRat 10 100 else mkRat (-20) 100
  | .spa =>
    if isSpa then 1 else if isFood then mkRat (-40) 100 else mkRat (-20) 100
  | .other => 0

/-- `inferMinStayMin` from `recommend.ts`: dwell-time default by intent
signal over `mood + keywords.join(' ')`, clamped to leave at least 10 minutes
below `availableMin`. -/
def inferMinStayMin (mood : String) (intentKeywords : List String)
    (availableMin : ℤ) : ℤ :=
  let s := mood ++ joinSpace intentKeywords
  let minStay : ℤ :=
    if strContainsAny s ["温泉", "泡汤", "汤泉", "汗蒸"] then 120
    else if strContainsAny s ["电影", "电影院"] then 120
    else if strContainsAny s ["火锅", "涮肉", "烧烤", "烤串", "夜宵", "宵夜", "麻辣烫"] then 60
    else if strContainsAny s ["咖啡", "甜品"] then 45
    else if strContainsAny s ["商场", "逛街"] then 90
    else if strContainsAny s ["江边", "公园", "散步", "走走"] then 30
    else if strContainsAny s ["博物馆", "展馆", "美术馆"] then 60
    else 30
  clampZ minStay 0 (max 0 (availableMin - 10))

/-! ## Recommendation pipeline (`handler` in `api/recommend.ts`)

The handler after input validation is a pure function of the request and of
what the outside world returns: the accumulated POI search results (one list
for the intent-keyword search, one for the generic-keyword fallback search),
the per-candidate `Math.random()` draw (`novelty i`), the haversine distance
used when the provider supplies none (`hav i`, floating-point trig in the
source), and the two routing durations for the single chosen candidate. -/

/-- One raw POI as accumulated by `fetchPoisByKeywords`:
`distanceMeter = Number(p.distance || 0) || undefined` (absent or a positive
number). -/
structure Poi where
  name : String
  category : String
  address : String
  location : String
  distanceMeter : Option ℚ
deriving DecidableEq, Repr

/-- One scored candidate (an element of the handler's `mapped` list). -/
structure Scored where
  poi : Poi
  oneWayMin : ℤ
  travelMinEst : ℤ
  playMinEst : ℤ
  weight : ℚ
  matchHits : Nat
  affinity : ℚ
deriving DecidableEq, Repr

/-- One entry of the disclosed `candidates` list (`candidatesForAi`). -/
structure CandView where
  name : String
  category : String
  address : String
  location : String
  oneWayMinEst : ℤ
  playMinEst : ℤ
deriving DecidableEq, Repr

/-- The three `relaxNotes` push sites, as tags for the literal strings:
`minStayLowered from to` = "为确保给出方案，已将最短停留从 from 分钟放宽到 to 分钟。",
`allowNearer` = "附近地点较集中，已允许推荐更近的地点。",
`shortfall play minStay` = "受时间/距离影响，实际可停留约 play 分钟，低于期望的 minStay 分钟。…". -/
inductive Note where
  | minStayLowered (fromMin toMin : ℤ)
  | allowNearer
  | shortfall (playMin minStayMin : ℤ)
deriving DecidableEq, Repr

/-- The three `empty:true` messages of the handler. -/
inductive EmptyMsg where
  | noNearby
  | tooTight
  | routeSlow
deriving DecidableEq, Repr

/-- The non-empty response body (fields of the final JSON the claims are
about; `effMinStay` records the final `minStayMin` value, as passed to the
report generator). -/
structure Payload where
  relaxNotes : List Note
  candidates : List CandView
  resultName : String
  resultCategory : String
  resultAddress : String
  resultLocation : String
  goMin : ℤ
  backMin : ℤ
  playMin : ℤ
  effMinStay : ℤ
deriving DecidableEq, Repr, Inhabited

/-- A (structurally valid, post-validation) handler outcome. -/
inductive Response where
  | empty (msg : EmptyMsg)
  | success (payload : Payload)
deriving DecidableEq, Repr, Inhabited

/-- `relaxNotes` of a response (`empty` responses carry none). -/
def Response.notes : Response → List Note
  | .empty _ => []
  | .success p => p.relaxNotes

/-- Whether a response is one of the sentinel `empty:true` outcomes. -/
def Response.isEmptyOutcome : Response → Bool
  | .empty _ => true
  | .success _ => false

/-- The payload of a successful response (`default` otherwise). -/
def payloadOf : Response → Payload
  | .empty _ => default
  | .success p => p

/-- The oracle inputs of one request: provider search results, RNG draws,
haversine fallback distances and the two routing durations (seconds). -/
structure Env where
  searchPois : List Poi
  fallbackPois : List Poi
  novelty : Nat → ℚ
  hav : Nat → ℚ
  goDurationSec : ℚ
  backDurationSec : ℚ

/-- The validated request fields the pipeline depends on (`startTime` and
`endTime` already parsed to minutes of day). -/
structure Req where
  mode : Mode
  startM : Nat
  endM : Nat
  mood : String
  categories : Option (List String)
  minStayMin : Option ℤ
  allowRelax : Bool

/-- `safeAvailableMin = clamp(minutesBetween(startTime, endTime), 30, 10*60)`. -/
def safeAvailOf (req : Req) : ℤ :=
  clampZ (minutesBetween req.startM req.endM) 30 600

/-- The rule-based intent profile `(keywords, primaryIntent, confidence)`
(`glmIntentProfile` never calls the model). -/
def ruleProfile (mood : String) : List String × IntentPrimary × ℚ :=
  let kws := heuristicKeywords mood
  let inferred := inferIntentPrimary mood kws
  (kws, inferred.1, if inferred.2 then mkRat 75 100 else mkRat 55 100)

/-- The handler's `intentProfile`: explicit `categories` (when non-empty) are
authoritative keywords with confidence 0.9/0.7, otherwise the rule pass with
confidence 0.75/0.55. -/
def intentProfileOf (req : Req) : List String × IntentPrimary × ℚ :=
  match req.categories with
  | some cats =>
    if cats = [] then ruleProfile req.mood
    else
      let inferred := inferIntentPrimary req.mood cats
      (cats, inferred.1, if inferred.2 then mkRat 90 100 else mkRat 70 100)
  | none => ruleProfile req.mood

/-- The resolved intent keyword list. -/
def intentKeywordsOf (req : Req) : List String := (intentProfileOf req).1

/-- The resolved primary intent. -/
def primaryOf (req : Req) : IntentPrimary := (intentProfileOf req).2.1

/-- `intent.strong = intentProfile.confidence >= 0.55`. -/
def strongOf (req : Req) : Bool := decide (mkRat 55 100 ≤ (intentProfileOf req).2.2)

/-- Candidate gathering: if the intent-keyword search accumulated nothing and
intent keywords exist, the handler re-runs against the generic default
keywords (`poiCandidates` then holds exactly that second batch). -/
def gatheredOf (req : Req) (env : Env) : List Poi :=
  if env.searchPois = [] ∧ intentKeywordsOf req ≠ [] then env.fallbackPois
  else env.searchPois

/-- Deduplication by `location ++ "::" ++ name`, first occurrence kept. -/
def dedupPoisAux (seen : List String) : List Poi → List Poi
  | [] => []
  | p :: rest =>
    let k := p.location ++ "::" ++ p.name
    if k ∈ seen then dedupPoisAux seen rest
    else p :: dedupPoisAux (k :: seen) rest

/-- `unique.slice(0, 18)`. -/
def limitOf (req : Req) (env : Env) : List Poi :=
  (dedupPoisAux [] (gatheredOf req env)).take 18

/-- `idealOneWay = clamp(Math.round(safeAvailableMin * 0.2), 10, 30)`. -/
def idealOneWayOf (req : Req) : ℤ :=
  clampZ (jroundQ (qmul (qOfInt (safeAvailOf req)) (mkRat 20 100))) 10 30

/-- The body of the handler's `limit.map(...)` scoring closure for candidate
`poi` with RNG draw `nov` and haversine fallback `havd`: `none` is the
hard pre-filter (`requiresMatch && match.hits === 0`). -/
def scoreOne (kws : List String) (primary : IntentPrimary) (strong : Bool)
    (safeA idealOneWay : ℤ) (mpm : ℚ) (nov havd : ℚ) (poi : Poi) :
    Option Scored :=
  let dist :=
    match poi.distanceMeter with
    | some d => if 0 < d then d else havd
    | none => havd
  let oneWayMin := max 1 (jroundQ (qdiv dist mpm))
  let travelMinEst := oneWayMin * 2
  let playMinEst := safeA - travelMinEst
  let closeness : ℚ :=
    qsub 1 (min 1 (qdiv (qOfInt |oneWayMin - idealOneWay|) (qOfInt idealOneWay)))
  let mtch := intentMatchScore kws poi.name poi.address poi.category
  let affinity := poiAffinity primary poi.name poi.category
  if kws ≠ [] ∧ mtch.1 = 0 then none
  else
    let wCloseness : ℚ := if strong then mkRat 40 100 else mkRat 55 100
    let wNovelty : ℚ := if strong then mkRat 20 100 else mkRat 25 100
    let wMatch : ℚ := mkRat 20 100
    let base :=
      qmul (qadd (qadd (qmul wCloseness closeness) (qmul wNovelty nov))
        (qmul wMatch mtch.2)) 100
    let affinityFactor :=
      if strong then clampQ (qadd 1 (qmul affinity (mkRat 12 10))) (mkRat 5 100) (mkRat 26 10)
      else clampQ (qadd 1 (qmul affinity (mkRat 6 10))) (mkRat 20 100) (mkRat 18 10)
    some { poi := poi, oneWayMin := oneWayMin, travelMinEst := travelMinEst,
           playMinEst := playMinEst, weight := qmul base affinityFactor,
           matchHits := mtch.1, affinity := affinity }

/-- The handler's `mapped` list: scored candidates surviving the hard
keyword pre-filter and `playMinEst >= 0`. -/
def mappedOf (req : Req) (env : Env) : List Scored :=
  (((limitOf req env).enum).filterMap (fun ip =>
      scoreOne (intentKeywordsOf req) (primaryOf req) (strongOf req)
        (safeAvailOf req) (idealOneWayOf req) (metersPerMinQ req.mode)
        (env.novelty ip.1) (env.hav ip.1) ip.2)).filter
    (fun x => decide (0 ≤ x.playMinEst))

/-- The intent-purity pass: with strong intent and at least one candidate of
affinity ≥ 0.7, candidates of affinity < −0.2 are dropped. -/
def intentFilteredOf (req : Req) (env : Env) : List Scored :=
  let mapped := mappedOf req env
  if strongOf req = true ∧ mapped.any (fun x => decide (mkRat 70 100 ≤ x.affinity)) = true then
    mapped.filter (fun x => decide (mkRat (-20) 100 ≤ x.affinity))
  else mapped

/-- `minStayMin` before the filter chain:
`clamp(minStayMin ?? inferMinStayMin(...), 0, max(0, safeAvailableMin - 10))`. -/
def initialMinStayOf (req : Req) : ℤ :=
  clampZ
    (req.minStayMin.getD
      (inferMinStayMin req.mood (intentKeywordsOf req) (safeAvailOf req)))
    0 (max 0 (safeAvailOf req - 10))

/-- Stable descending insertion of one element: `x` goes before the first
element whose weight is ≤ its own. -/
def insertByWeightDesc (x : Scored) : List Scored → List Scored
  | [] => [x]
  | y :: ys =>
    if y.weight ≤ x.weight then x :: y :: ys else y :: insertByWeightDesc x ys

/-- Descending stable sort by `weight`
(`rough.sort((a,b) => b.weight - a.weight)`; `Array.prototype.sort` is
stable, and a stable sort's result is unique, so stable insertion sort
computes the same list). -/
def sortByWeightDesc : List Scored → List Scored
  | [] => []
  | x :: xs => insertByWeightDesc x (sortByWeightDesc xs)

/-- Result of the layered constraint chain. -/
structure ChainOut where
  rough : List Scored
  notes : List Note
  minStay : ℤ
deriving Repr

/-- Steps 1–2 of the constraint chain (lines 712–720): the minimum-stay
filter over `intentFiltered`, and — only when it leaves nothing and
`allowRelax` holds — the lowering of `minStayMin` to `min(minStayMin, 20)`
with a note, refilling from `mapped`. -/
def chainMinStayStep (allowRelax : Bool) (minStay0 : ℤ)
    (mapped intentFiltered : List Scored) : ChainOut :=
  let rough1 := intentFiltered.filter (fun x => decide (minStay0 ≤ x.playMinEst))
  if rough1 = [] ∧ allowRelax = true then
    let relaxed := min minStay0 20
    if relaxed < minStay0 then
      { rough := mapped.filter (fun x => decide (relaxed ≤ x.playMinEst)),
        notes := [Note.minStayLowered minStay0 relaxed], minStay := relaxed }
    else
      { rough := mapped.filter (fun x => decide (minStay0 ≤ x.playMinEst)),
        notes := ([] : List Note), minStay := minStay0 }
  else { rough := rough1, notes := ([] : List Note), minStay := minStay0 }

/-- Steps 3–4 of the constraint chain (lines 723–729): the one-way floor,
and — unconditionally, `allowRelax` notwithstanding — the "allow nearer"
refill from `mapped` with a note when the floor empties the list. -/
def chainOneWayStep (mapped : List Scored) (minOneWay : ℤ) (c : ChainOut) :
    ChainOut :=
  let rough3 := c.rough.filter (fun x => decide (minOneWay ≤ x.oneWayMin))
  if rough3 = [] then
    { rough := mapped.filter (fun x => decide (c.minStay ≤ x.playMinEst)),
      notes := c.notes ++ [Note.allowNearer], minStay := c.minStay }
  else { c with rough := rough3 }

/-- The handler's full constraint chain (lines 711–731): minimum-stay step,
one-way step (floor 1 with intent keywords, else 6), then sort by weight
descending and keep the top 10. -/
def filterChain (allowRelax : Bool) (minStay0 : ℤ)
    (mapped intentFiltered : List Scored) (intentKws : List String) : ChainOut :=
  let step2 := chainMinStayStep allowRelax minStay0 mapped intentFiltered
  let step4 := chainOneWayStep mapped (if intentKws = [] then 6 else 1) step2
  { step4 with rough := (sortByWeightDesc step4.rough).take 10 }

/-- The chain applied to this request. -/
def chainOf (req : Req) (env : Env) : ChainOut :=
  filterChain req.allowRelax (initialMinStayOf req) (mappedOf req env)
    (intentFilteredOf req env) (intentKeywordsOf req)

/-- `goMin = Math.max(1, Math.round(go.durationSec / 60))`. -/
def routedGoMin (env : Env) : ℤ := max 1 (jroundQ (qdiv env.goDurationSec 60))

/-- `backMin = Math.max(1, Math.round(back.durationSec / 60))`. -/
def routedBackMin (env : Env) : ℤ := max 1 (jroundQ (qdiv env.backDurationSec 60))

/-- Projection of a scored candidate to a disclosed `candidates` entry. -/
def candView (c : Scored) : CandView :=
  { name := c.poi.name, category := c.poi.category, address := c.poi.address,
    location := c.poi.location, oneWayMinEst := c.oneWayMin,
    playMinEst := c.playMinEst }

/-- The budget-finalizer tail of the handler (lines 741–842): route the single
chosen candidate, compute the real split, bail out on a negative `playMin`,
otherwise disclose the shortfall note (only under `allowRelax`) and build the
success payload. -/
def finalize (req : Req) (env : Env) (ch : ChainOut) (chosen : Scored) :
    Response :=
  let goMin := routedGoMin env
  let backMin := routedBackMin env
  let playMin := safeAvailOf req - (goMin + backMin)
  if playMin < 0 then .empty .routeSlow
  else
    let notes :=
      if playMin < ch.minStay ∧ req.allowRelax = true then
        ch.notes ++ [Note.shortfall playMin ch.minStay]
      else ch.notes
    .success
      { relaxNotes := notes,
        candidates := ((ch.rough.take 12).map candView).take 3,
        resultName := chosen.poi.name, resultCategory := chosen.poi.category,
        resultAddress := chosen.poi.address, resultLocation := chosen.poi.location,
        goMin := goMin, backMin := backMin, playMin := playMin,
        effMinStay := ch.minStay }

/-- The whole post-validation handler as a function of request and oracle. -/
def recommend (req : Req) (env : Env) : Response :=
  if limitOf req env = [] then .empty .noNearby
  else
    match (chainOf req env).rough with
    | [] => .empty .tooTight
    | chosen :: _ => finalize req env (chainOf req env) chosen

/-! ## Arrival verification (`POST /api/egg-verify`)

`haversineMeters` computes with floating-point trigonometry; the model uses
exact real arithmetic with the same formula (sphere radius 6 371 000 m). -/

/-- Degrees to radians (`toRad`). -/
noncomputable def toRad (d : ℝ) : ℝ := d * Real.pi / 180

/-- `haversineMeters` from the server (`(lng, lat)` pairs):
`2 * R * asin(min(1, sqrt(x)))`. -/
noncomputable def haversineMeters (a b : ℝ × ℝ) : ℝ :=
  let dLat := toRad (b.2 - a.2)
  let dLng := toRad (b.1 - a.1)
  let lat1 := toRad a.2
  let lat2 := toRad b.2
  let x := Real.sin (dLat / 2) ^ 2
    + Real.cos lat1 * Real.cos lat2 * Real.sin (dLng / 2) ^ 2
  2 * 6371000 * Real.arcsin (min 1 (Real.sqrt x))

/-- `/api/egg-verify`'s `reached`: the unrounded distance compared against
`radiusMeter`. -/
def eggVerifyReached (user dest : ℝ × ℝ) (radius : ℝ) : Prop :=
  haversineMeters user dest ≤ radius

/-- `/api/egg-verify`'s `distanceMeter`: `Math.round(dist)` (`⌊dist + ½⌋`). -/
noncomputable def eggVerifyDistanceMeter (user dest : ℝ × ℝ) : ℤ :=
  ⌊haversineMeters user dest + 1 / 2⌋

/-! ## Concrete scenarios (counterexamples and witnesses)

`novelty = 1` is a legal draw of `0.7 + Math.random() * 0.6`; distances are
provider-supplied, so the haversine fallback oracle is unused (`0`). -/

/-- A generic POI 170 m away (2 walking minutes). -/
def cePoiNear : Poi := ⟨"shopA", "catx", "addrx", "111,30", some 170⟩

/-- Empty mood (no intent keywords), 10:00–12:00, walk, `minStayMin = 30`,
`allowRelax = false`. -/
def ce2Req : Req := ⟨Mode.walk, 600, 720, "", none, some 30, false⟩

/-- Only `cePoiNear` nearby; both routing legs take 120 s. -/
def ce2Env : Env := ⟨[cePoiNear], [], fun _ => 1, fun _ => 0, 120, 120⟩

/-- A generic POI 850 m away (10 walking minutes). -/
def cePoiFar : Poi := ⟨"shopA", "catx", "addrx", "111,30", some 850⟩

/-- Empty mood, 10:00–12:00, walk, `minStayMin = 30`, `allowRelax = false`. -/
def ce3aReq : Req := ⟨Mode.walk, 600, 720, "", none, some 30, false⟩

/-- The same request with `allowRelax = true`. -/
def ce3bReq : Req := ⟨Mode.walk, 600, 720, "", none, some 30, true⟩

/-- Only `cePoiFar` nearby; both routing legs take 3000 s (50 min), so the
routed dwell is 120 − 100 = 20 minutes, below the requested 30. -/
def ce3Env : Env := ⟨[cePoiFar], [], fun _ => 1, fun _ => 0, 3000, 3000⟩

/-- A park POI 680 m away (8 walking minutes; affinity 1 for intent `park`). -/
def cePoiPark : Poi := ⟨"滨江公园", "风景名胜;公园广场;公园", "addr", "111.1,30.1", some 680⟩

/-- A food POI 425 m away (5 walking minutes; affinity −0.85 for `park`). -/
def cePoiFood : Poi := ⟨"小面馆", "餐饮服务;中餐厅;火锅店", "addr2", "111.2,30.2", some 425⟩

/-- A park-intent mood too long for the raw-text keyword fallback (11 chars,
no keyword trigger), 10:00–10:35, walk, `minStayMin = 30`, `allowRelax = true`:
both the dwell-time lowering and the one-way-floor refill fire. -/
def ce4Req : Req := ⟨Mode.walk, 600, 635, "今天想出去遛弯呀啊哈哈", none, some 30, true⟩

/-- Park and food POI nearby; both routing legs take 300 s. -/
def ce4Env : Env := ⟨[cePoiPark, cePoiFood], [], fun _ => 1, fun _ => 0, 300, 300⟩

/-- A POI matching the coffee keyword. -/
def cePoiCafe : Poi := ⟨"星巴克咖啡", "餐饮服务;咖啡厅", "addry", "112,30", some 1000⟩

/-- A POI matching no intent keyword. -/
def cePoiOther : Poi := ⟨"somewhere", "caty", "addrz", "113,30", some 1000⟩

/-- Coffee mood (keywords `["咖啡", "咖啡馆"]`), 09:00–12:00, walk. -/
def c5Req : Req := ⟨Mode.walk, 540, 720, "咖啡", none, none, true⟩

/-- One matching and one non-matching POI; both routing legs 700 s. -/
def c5Env : Env := ⟨[cePoiCafe, cePoiOther], [], fun _ => 1, fun _ => 0, 700, 700⟩

/-! ## Theorems -/

/-! ### The `mkRat` arithmetic agrees with the field operations of `ℚ` -/

theorem qadd_eq (a b : ℚ) : qadd a b = a + b := (Rat.add_def' a b).symm

theorem qsub_eq (a b : ℚ) : qsub a b = a - b := (Rat.sub_def' a b).symm

theorem qmul_eq (a b : ℚ) : qmul a b = a * b := by
  rw [Rat.mul_def, Rat.normalize_eq_mkRat]; rfl

theorem qinv_eq (a : ℚ) : qinv a = a⁻¹ := (Rat.inv_def a).symm

theorem qdiv_eq (a b : ℚ) : qdiv a b = a / b := by
  rw [qdiv, qmul_eq, qinv_eq, div_eq_mul_inv]

theorem qOfInt_eq (n : ℤ) : qOfInt n = (n : ℚ) := by
  rw [qOfInt, Rat.mkRat_one]

/-! ### Inversion helpers for the pipeline -/

/-- A successful `finalize` pins every payload field. -/
theorem finalize_success_inv {req : Req} {env : Env} {ch : ChainOut}
    {chosen : Scored} {p : Payload}
    (h : finalize req env ch chosen = Response.success p) :
    0 ≤ safeAvailOf req - (routedGoMin env + routedBackMin env) ∧
    p = { relaxNotes :=
            if safeAvailOf req - (routedGoMin env + routedBackMin env) < ch.minStay
                ∧ req.allowRelax = true then
              ch.notes ++ [Note.shortfall
                (safeAvailOf req - (routedGoMin env + routedBackMin env)) ch.minStay]
            else ch.notes,
          candidates := ((ch.rough.take 12).map candView).take 3,
          resultName := chosen.poi.name, resultCategory := chosen.poi.category,
          resultAddress := chosen.poi.address, resultLocation := chosen.poi.location,
          goMin := routedGoMin env, backMin := routedBackMin env,
          playMin := safeAvailOf req - (routedGoMin env + routedBackMin env),
          effMinStay := ch.minStay } := by
  simp only [finalize] at h
  split at h
  · exact absurd h (by simp)
  · next hn => exact ⟨by omega, by injection h with h; exact h.symm⟩

/-- A successful `recommend` went through `finalize` on the head of the
chain's final candidate list. -/
theorem recommend_success_chain {req : Req} {env : Env} {p : Payload}
    (h : recommend req env = Response.success p) :
    ∃ chosen rest, (chainOf req env).rough = chosen :: rest ∧
      finalize req env (chainOf req env) chosen = Response.success p := by
  simp only [recommend] at h
  split at h
  · exact absurd h (by simp)
  · split at h
    · exact absurd h (by simp)
    · next chosen rest heq => exact ⟨chosen, rest, heq, h⟩

/-- Field-level description of every successful response. -/
theorem recommend_success_fields {req : Req} {env : Env} {p : Payload}
    (h : recommend req env = Response.success p) :
    p.goMin = routedGoMin env ∧ p.backMin = routedBackMin env ∧
    p.playMin = safeAvailOf req - (routedGoMin env + routedBackMin env) ∧
    0 ≤ p.playMin ∧ p.effMinStay = (chainOf req env).minStay ∧
    p.relaxNotes = (if p.playMin < (chainOf req env).minStay ∧ req.allowRelax = true
        then (chainOf req env).notes
          ++ [Note.shortfall p.playMin (chainOf req env).minStay]
        else (chainOf req env).notes) ∧
    ∃ chosen rest, (chainOf req env).rough = chosen :: rest ∧
      p.candidates = (((chosen :: rest).take 12).map candView).take 3 ∧
      p.resultName = chosen.poi.name ∧ p.resultCategory = chosen.poi.category ∧
      p.resultAddress = chosen.poi.address ∧ p.resultLocation = chosen.poi.location := by
  obtain ⟨chosen, rest, hrough, hfin⟩ := recommend_success_chain h
  obtain ⟨hplay, hp⟩ := finalize_success_inv hfin
  subst hp
  refine ⟨rfl, rfl, rfl, hplay, rfl, rfl, chosen, rest, hrough, ?_, rfl, rfl, rfl, rfl⟩
  rw [hrough]

/-- Claim C8: the side-quest gate grants eligibility exactly when the window
does not cross midnight and lies inside 06:00–20:00; windows 09:00–11:00,
19:30–21:00 and 23:00–01:00 behave as stated, and ineligibility depends on
nothing but the window. -/
theorem eggGate_daytime_only :
    (∀ a b : String, isDaytimeWindow a b = true ↔
      hhmmToMin a ≤ hhmmToMin b ∧ DAY_START_MIN ≤ hhmmToMin a ∧ hhmmToMin b ≤ DAY_END_MIN)
    ∧ (∀ a b : String, eggHandler a b = .eligible 140 ↔ isDaytimeWindow a b = true)
    ∧ eggHandler "09:00" "11:00" = .eligible 140
    ∧ eggHandler "19:30" "21:00" = .ineligible
    ∧ eggHandler "23:00" "01:00" = .ineligible := by
  refine ⟨fun a b => ?_, fun a b => ?_, by decide, by decide, by decide⟩
  · simp only [isDaytimeWindow]
    split
    · simp only [Bool.false_eq_true, false_iff]
      omega
    · simp only [Bool.and_eq_true, decide_eq_true_eq]
      omega
  · simp only [eggHandler]
    split <;> simp_all

/-- The chain's notes and minStay are those of its one-way step. -/
theorem filterChain_notes_def (ar : Bool) (m0 : ℤ) (mapped intF : List Scored)
    (kws : List String) :
    (filterChain ar m0 mapped intF kws).notes
      = (chainOneWayStep mapped (if kws = [] then 6 else 1)
          (chainMinStayStep ar m0 mapped intF)).notes := rfl

/-- The chain's minStay is that of its one-way step. -/
theorem filterChain_minStay_def (ar : Bool) (m0 : ℤ) (mapped intF : List Scored)
    (kws : List String) :
    (filterChain ar m0 mapped intF kws).minStay
      = (chainOneWayStep mapped (if kws = [] then 6 else 1)
          (chainMinStayStep ar m0 mapped intF)).minStay := rfl

/-- With `allowRelax = false` the minimum-stay step is the bare filter: no
note, threshold untouched. -/
theorem chainMinStayStep_no_relax (m0 : ℤ) (mapped intF : List Scored) :
    chainMinStayStep false m0 mapped intF
      = { rough := intF.filter (fun x => decide (m0 ≤ x.playMinEst)),
          notes := [], minStay := m0 } := by
  simp [chainMinStayStep]

/-- The minimum-stay step either does nothing to notes and threshold, or
(only under `allowRelax`) lowers the threshold to `min minStay0 20` and says
so. -/
theorem chainMinStayStep_shape (ar : Bool) (m0 : ℤ) (mapped intF : List Scored) :
    ((chainMinStayStep ar m0 mapped intF).notes = []
      ∧ (chainMinStayStep ar m0 mapped intF).minStay = m0)
    ∨ ((chainMinStayStep ar m0 mapped intF).notes = [Note.minStayLowered m0 (min m0 20)]
      ∧ ar = true ∧ (chainMinStayStep ar m0 mapped intF).minStay = min m0 20) := by
  simp only [chainMinStayStep]
  split
  · next hc =>
    split
    · exact Or.inr ⟨rfl, hc.2, rfl⟩
    · exact Or.inl ⟨rfl, rfl⟩
  · exact Or.inl ⟨rfl, rfl⟩

/-- The one-way step at most appends the "allow nearer" note and never
touches the threshold. -/
theorem chainOneWayStep_shape (mapped : List Scored) (w : ℤ) (c : ChainOut) :
    ((chainOneWayStep mapped w c).notes = c.notes
      ∨ (chainOneWayStep mapped w c).notes = c.notes ++ [Note.allowNearer])
    ∧ (chainOneWayStep mapped w c).minStay = c.minStay := by
  simp only [chainOneWayStep]
  split
  · exact ⟨Or.inr rfl, rfl⟩
  · exact ⟨Or.inl rfl, rfl⟩

/-- With `allowRelax = false`, the chain keeps the original threshold and
its notes are at most the one-way note. -/
theorem filterChain_no_relax (m0 : ℤ) (mapped intF : List Scored) (kws : List String) :
    (filterChain false m0 mapped intF kws).minStay = m0
    ∧ ((filterChain false m0 mapped intF kws).notes = []
       ∨ (filterChain false m0 mapped intF kws).notes = [Note.allowNearer]) := by
  rw [filterChain_notes_def, filterChain_minStay_def, chainMinStayStep_no_relax]
  obtain ⟨hn, hm⟩ := chainOneWayStep_shape mapped (if kws = [] then 6 else 1)
    { rough := intF.filter (fun x => decide (m0 ≤ x.playMinEst)),
      notes := [], minStay := m0 }
  exact ⟨hm, by simpa using hn⟩

/-- Chain notes are an optional dwell note followed by an optional one-way
note, in that order. -/
theorem filterChain_notes_shape (ar : Bool) (m0 : ℤ) (mapped intF : List Scored)
    (kws : List String) :
    ∃ d n, (filterChain ar m0 mapped intF kws).notes = d ++ n
      ∧ (d = [] ∨ (d = [Note.minStayLowered m0 (min m0 20)] ∧ ar = true))
      ∧ (n = [] ∨ n = [Note.allowNearer]) := by
  rw [filterChain_notes_def]
  obtain ⟨hn, -⟩ := chainOneWayStep_shape mapped (if kws = [] then 6 else 1)
    (chainMinStayStep ar m0 mapped intF)
  rcases chainMinStayStep_shape ar m0 mapped intF with ⟨h2n, -⟩ | ⟨h2n, har, -⟩ <;>
    rcases hn with hn | hn <;> rw [h2n] at hn
  · exact ⟨[], [], by simpa using hn, Or.inl rfl, Or.inl rfl⟩
  · exact ⟨[], [Note.allowNearer], by simpa using hn, Or.inl rfl, Or.inr rfl⟩
  · exact ⟨[Note.minStayLowered m0 (min m0 20)], [], by simpa using hn,
      Or.inr ⟨rfl, har⟩, Or.inl rfl⟩
  · exact ⟨[Note.minStayLowered m0 (min m0 20)], [Note.allowNearer], hn,
      Or.inr ⟨rfl, har⟩, Or.inr rfl⟩

/-! ### The claims -/

/-- Claim C1: every non-empty response satisfies
`goMin + playMin + backMin = clamp(availableMinutes, 30, 600)` with
`playMin ≥ 0`, and whenever the precise routing yields
`goMin + backMin > clamp(availableMinutes, 30, 600)` the handler returns a
sentinel empty outcome, never a negative-duration plan. -/
theorem recommend_budget_closure (req : Req) (env : Env) :
    (∀ p, recommend req env = Response.success p →
      p.goMin + p.playMin + p.backMin
          = clampZ (minutesBetween req.startM req.endM) 30 600
        ∧ 0 ≤ p.playMin)
    ∧ (clampZ (minutesBetween req.startM req.endM) 30 600
        < routedGoMin env + routedBackMin env →
        (recommend req env).isEmptyOutcome = true) := by
  constructor
  · intro p h
    obtain ⟨hg, hb, hp, hps, -⟩ := recommend_success_fields h
    refine ⟨?_, hps⟩
    show _ = safeAvailOf req
    rw [hg, hb, hp]
    ring
  · intro hlt
    have hlt' : safeAvailOf req < routedGoMin env + routedBackMin env := hlt
    rcases hresp : recommend req env with msg | p
    · rfl
    · obtain ⟨-, -, hp, hps, -⟩ := recommend_success_fields hresp
      omega

/-- Claim C2 (amended): with `allowRelax = false` the minimum-stay
relaxation (step 2) never runs — the threshold reaching the finalizer is the
initial one and no dwell (nor shortfall) note is ever produced — but the
one-way-floor fallback of steps 3–4 runs regardless of `allowRelax`, so the
response's notes can still contain the one-way note. -/
theorem allowRelax_blocks_minStay_relax (req : Req) (env : Env)
    (h : req.allowRelax = false) :
    ((recommend req env).notes.all (fun n => decide (n = Note.allowNearer)) = true)
    ∧ (∀ p, recommend req env = Response.success p →
        p.effMinStay = initialMinStayOf req) := by
  have hchain := filterChain_no_relax (initialMinStayOf req) (mappedOf req env)
    (intentFilteredOf req env) (intentKeywordsOf req)
  have hc : chainOf req env
      = filterChain false (initialMinStayOf req) (mappedOf req env)
        (intentFilteredOf req env) (intentKeywordsOf req) := by
    rw [chainOf, h]
  constructor
  · rcases hresp : recommend req env with msg | p
    · rfl
    · obtain ⟨-, -, -, -, -, hnotes, -⟩ := recommend_success_fields hresp
      simp only [h, Bool.false_eq_true, and_false, if_false, hc] at hnotes
      show p.relaxNotes.all _ = true
      rw [hnotes]
      rcases hchain.2 with hn | hn <;> rw [hn] <;> rfl
  · intro p hresp
    obtain ⟨-, -, -, -, hms, -⟩ := recommend_success_fields hresp
    rw [hms, hc, hchain.1]

/-- Claim C2, witness: the amended theorem applied to the concrete
`allowRelax = false` scenario. -/
theorem allowRelax_blocks_minStay_relax_witness :
    (recommend ce2Req ce2Env).notes.all (fun n => decide (n = Note.allowNearer)) = true :=
  (allowRelax_blocks_minStay_relax ce2Req ce2Env rfl).1

/-- Claim C2, counterexample to the claim as stated: a structurally valid
request with `allowRelax = false` (empty mood, one 2-minute-away POI) whose
non-empty response carries the one-way relaxation note — steps 3–4 ran and a
relaxation note was produced despite `allowRelax = false`. -/
theorem allowRelax_note_counterexample :
    ce2Req.allowRelax = false
    ∧ (recommend ce2Req ce2Env).isEmptyOutcome = false
    ∧ (recommend ce2Req ce2Env).notes = [Note.allowNearer] :=
  ⟨rfl, by decide, by decide⟩

/-- Claim C3 (amended): for requests with `allowRelax = true`, whenever the
precise routed split gives `0 ≤ playMin < minStayMinutes` the handler keeps
the plan and appends the shortfall note; with `allowRelax = false` the code
keeps the plan but omits the note. -/
theorem shortfall_note_on_allowRelax (req : Req) (env : Env) (p : Payload)
    (hr : req.allowRelax = true) (h : recommend req env = Response.success p)
    (hlt : p.playMin < p.effMinStay) :
    Note.shortfall p.playMin p.effMinStay ∈ p.relaxNotes := by
  obtain ⟨-, -, -, -, hms, hnotes, -⟩ := recommend_success_fields h
  rw [hms] at hlt
  rw [hnotes, if_pos ⟨hlt, hr⟩, hms]
  simp

/-- Claim C3, witness: the amended theorem applied to a concrete scenario
whose routed dwell (20 min) is below the requested minimum stay (30 min). -/
theorem shortfall_note_on_allowRelax_witness :
    Note.shortfall (payloadOf (recommend ce3bReq ce3Env)).playMin
        (payloadOf (recommend ce3bReq ce3Env)).effMinStay
      ∈ (payloadOf (recommend ce3bReq ce3Env)).relaxNotes :=
  shortfall_note_on_allowRelax ce3bReq ce3Env _ rfl (by decide) (by decide)

/-- Claim C3, counterexample to the claim as stated: with
`allowRelax = false` and a routed dwell of 20 < 30 minutes, the handler
returns a non-empty plan with NO shortfall note — the shortfall is silently
hidden. -/
theorem shortfall_hidden_counterexample :
    ce3aReq.allowRelax = false
    ∧ (recommend ce3aReq ce3Env).isEmptyOutcome = false
    ∧ (payloadOf (recommend ce3aReq ce3Env)).playMin = 20
    ∧ (payloadOf (recommend ce3aReq ce3Env)).effMinStay = 30
    ∧ (recommend ce3aReq ce3Env).notes = [] :=
  ⟨rfl, by decide, by decide, by decide, by decide⟩

/-- Claim C4: in every returned `relaxNotes` list, a dwell-time
(minimum-stay) note occurs strictly before any one-way-distance note. -/
theorem relaxNotes_dwell_before_oneway (req : Req) (env : Env) (p : Payload)
    (i j : ℕ) (f t : ℤ)
    (h : recommend req env = Response.success p)
    (hi : p.relaxNotes.get? i = some (Note.minStayLowered f t))
    (hj : p.relaxNotes.get? j = some Note.allowNearer) : i < j := by
  obtain ⟨-, -, -, -, -, hnotes, -⟩ := recommend_success_fields h
  obtain ⟨d, n, hdn, hd, hn⟩ := filterChain_notes_shape req.allowRelax
    (initialMinStayOf req) (mappedOf req env) (intentFilteredOf req env)
    (intentKeywordsOf req)
  have hdn' : (chainOf req env).notes = d ++ n := hdn
  rw [hnotes, hdn'] at hi hj
  by_cases hcnd : p.playMin < (chainOf req env).minStay ∧ req.allowRelax = true
  · rw [if_pos hcnd] at hi hj
    rcases hd with rfl | ⟨rfl, -⟩ <;> rcases hn with rfl | rfl
    · exact absurd (List.get?_mem hi) (by simp)
    · exact absurd (List.get?_mem hi) (by simp)
    · exact absurd (List.get?_mem hj) (by simp)
    · have hi0 : i = 0 := by rcases i with _ | _ | _ | i <;> simp_all
      have hj1 : j = 1 := by rcases j with _ | _ | _ | j <;> simp_all
      omega
  · rw [if_neg hcnd] at hi hj
    rcases hd with rfl | ⟨rfl, -⟩ <;> rcases hn with rfl | rfl
    · exact absurd (List.get?_mem hi) (by simp)
    · exact absurd (List.get?_mem hi) (by simp)
    · exact absurd (List.get?_mem hj) (by simp)
    · have hi0 : i = 0 := by rcases i with _ | _ | _ | i <;> simp_all
      have hj1 : j = 1 := by rcases j with _ | _ | _ | j <;> simp_all
      omega

/-- Claim C4, witness: a run in which both notes occur — the dwell note at
index 0 and the one-way note at index 1. -/
theorem relaxNotes_dwell_before_oneway_witness :
    (payloadOf (recommend ce4Req ce4Env)).relaxNotes.get? 0
        = some (Note.minStayLowered 25 20)
    ∧ (payloadOf (recommend ce4Req ce4Env)).relaxNotes.get? 1
        = some Note.allowNearer
    ∧ 0 < 1 :=
  ⟨by decide, by decide,
    relaxNotes_dwell_before_oneway ce4Req ce4Env
      (payloadOf (recommend ce4Req ce4Env)) 0 1 25 20 (by decide)
      (by decide) (by decide)⟩

/-- Claim C5: when intent keywords exist, every candidate surviving the
scoring map — the list all later filters and the ranking draw from — has at
least one keyword hit; a candidate with `matchHits = 0` is discarded there,
whatever its weight. -/
theorem hard_prefilter_discards (req : Req) (env : Env)
    (h : intentKeywordsOf req ≠ []) :
    (mappedOf req env).all (fun x => decide (0 < x.matchHits)) = true := by
  rw [List.all_eq_true]
  intro x hx
  rw [decide_eq_true_eq]
  simp only [mappedOf, List.mem_filter, List.mem_filterMap] at hx
  obtain ⟨⟨ip, hip, hscore⟩, -⟩ := hx
  simp only [scoreOne] at hscore
  split at hscore
  · exact absurd hscore (by simp)
  · next hcond =>
    rw [Option.some.injEq] at hscore
    subst hscore
    simp only []
    rcases Nat.eq_zero_or_pos (intentMatchScore (intentKeywordsOf req) ip.2.name
      ip.2.address ip.2.category).1 with hz | hpos
    · exact absurd ⟨h, hz⟩ hcond
    · exact hpos

/-- Claim C5, witness: the coffee-mood scenario (keywords exist, one scored
candidate survives). -/
theorem hard_prefilter_discards_witness :
    (mappedOf c5Req c5Env).all (fun x => decide (0 < x.matchHits)) = true :=
  hard_prefilter_discards c5Req c5Env (by decide)

/-- Claim C6: `suggestedRadiusMeters` equals
`clamp(clamp(⌊availableMinutes/4⌋, 8, 60) * modeSpeed, 800, 12000)`, is
monotone non-decreasing in `availableMinutes` for each fixed mode, and for
equal minutes satisfies walk ≤ bike ≤ drive. -/
theorem suggestedRadius_formula_monotone :
    (∀ (mo : Mode) (m : Nat), suggestedRadiusMeters mo m
        = clampNat (clampNat (m / 4) 8 60 * modeSpeed mo) 800 12000)
    ∧ (∀ (mo : Mode) (m₁ m₂ : Nat), m₁ ≤ m₂ →
        suggestedRadiusMeters mo m₁ ≤ suggestedRadiusMeters mo m₂)
    ∧ (∀ m : Nat, suggestedRadiusMeters .walk m ≤ suggestedRadiusMeters .bike m
        ∧ suggestedRadiusMeters .bike m ≤ suggestedRadiusMeters .drive m) := by
  refine ⟨fun mo m => rfl, fun mo m₁ m₂ h => ?_, fun m => ⟨?_, ?_⟩⟩
  · unfold suggestedRadiusMeters clampNat
    exact max_le_max (le_refl _) (min_le_min (le_refl _)
      (Nat.mul_le_mul_right _ (max_le_max (le_refl _) (min_le_min (le_refl _)
        (Nat.div_le_div_right h)))))
  · unfold suggestedRadiusMeters clampNat modeSpeed
    exact max_le_max (le_refl _) (min_le_min (le_refl _)
      (Nat.mul_le_mul_left _ (by norm_num)))
  · unfold suggestedRadiusMeters clampNat modeSpeed
    exact max_le_max (le_refl _) (min_le_min (le_refl _)
      (Nat.mul_le_mul_left _ (by norm_num)))

/-- Claim C7: the rule-based intent resolution (`heuristicKeywords` together
with `inferIntentPrimary`) is pure and deterministic: equal inputs give equal
keyword lists and equal primary-intent classifications. -/
theorem intent_rule_deterministic (m₁ m₂ : String) (k₁ k₂ : List String)
    (h₁ : m₁ = m₂) (h₂ : k₁ = k₂) :
    (heuristicKeywords m₁, inferIntentPrimary m₁ k₁)
      = (heuristicKeywords m₂, inferIntentPrimary m₂ k₂) := by
  subst h₁; subst h₂; rfl

/-- Claim C7, witness: two runs on the coffee mood coincide. -/
theorem intent_rule_deterministic_witness :
    (heuristicKeywords "咖啡", inferIntentPrimary "咖啡" ["咖啡"])
      = (heuristicKeywords "咖啡", inferIntentPrimary "咖啡" ["咖啡"]) :=
  intent_rule_deterministic "咖啡" "咖啡" ["咖啡"] ["咖啡"] rfl rfl

/-- Claim C9: every successful response disclosed between 1 and 3
candidates, and the routed destination is exactly the first entry of that
list (the deterministic head of the weight-sorted survivors — no
weighted-random draw is involved). -/
theorem recommend_top_candidates (req : Req) (env : Env) (p : Payload)
    (h : recommend req env = Response.success p) :
    1 ≤ p.candidates.length ∧ p.candidates.length ≤ 3 ∧
    ∃ c, p.candidates.head? = some c ∧ c.name = p.resultName
      ∧ c.category = p.resultCategory ∧ c.address = p.resultAddress
      ∧ c.location = p.resultLocation := by
  obtain ⟨-, -, -, -, -, -, chosen, rest, -, hc, hn, hcat, ha, hl⟩ :=
    recommend_success_fields h
  rw [hc]
  refine ⟨?_, ?_, candView chosen, ?_, hn.symm, hcat.symm, ha.symm, hl.symm⟩
  · simp [List.length_take]
  · simp [List.length_take]
  · simp [List.take_cons, List.map_cons, List.head?]

/-- Claim C9, witness: a concrete successful run disclosing its destination
as the head of the candidate list. -/
theorem recommend_top_candidates_witness :
    1 ≤ (payloadOf (recommend ce3bReq ce3Env)).candidates.length
    ∧ (payloadOf (recommend ce3bReq ce3Env)).candidates.length ≤ 3
    ∧ ∃ c, (payloadOf (recommend ce3bReq ce3Env)).candidates.head? = some c
      ∧ c.name = (payloadOf (recommend ce3bReq ce3Env)).resultName
      ∧ c.category = (payloadOf (recommend ce3bReq ce3Env)).resultCategory
      ∧ c.address = (payloadOf (recommend ce3bReq ce3Env)).resultAddress
      ∧ c.location = (payloadOf (recommend ce3bReq ce3Env)).resultLocation :=
  recommend_top_candidates ce3bReq ce3Env (payloadOf (recommend ce3bReq ce3Env))
    (by decide)

/-- Claim C10: `/api/egg-verify` compares the unrounded distance with the
radius but reports the rounded distance, so at the equator position
`(0.00126°, 0°)` — whose great-circle distance from `(0°, 0°)` is
`44597·π/1000 ≈ 140.105` m, strictly between 140 and 140.5 — the response is
`reached = false` with `distanceMeter = 140`; at the exact destination it is
`reached = true` with `distanceMeter = 0`; and any distance ≥ 141 m with
radius 140 gives `reached = false`. -/
theorem eggVerify_rounding_edge :
    (∀ pt : ℝ × ℝ, eggVerifyReached pt pt 140 ∧ eggVerifyDistanceMeter pt pt = 0)
    ∧ (140 < haversineMeters ((0 : ℝ), (0 : ℝ)) ((63 / 50000 : ℝ), (0 : ℝ))
        ∧ haversineMeters ((0 : ℝ), (0 : ℝ)) ((63 / 50000 : ℝ), (0 : ℝ)) < 140 + 1 / 2
        ∧ ¬ eggVerifyReached ((0 : ℝ), (0 : ℝ)) ((63 / 50000 : ℝ), (0 : ℝ)) 140
        ∧ eggVerifyDistanceMeter ((0 : ℝ), (0 : ℝ)) ((63 / 50000 : ℝ), (0 : ℝ)) = 140)
    ∧ (∀ u d : ℝ × ℝ, 141 ≤ haversineMeters u d → ¬ eggVerifyReached u d 140) := by
  have hself : ∀ pt : ℝ × ℝ, haversineMeters pt pt = 0 := by
    intro pt
    simp [haversineMeters, toRad]
  have hval : haversineMeters ((0 : ℝ), (0 : ℝ)) ((63 / 50000 : ℝ), (0 : ℝ))
      = 44597 * Real.pi / 1000 := by
    have hpi := Real.pi_pos
    have ht0 : (0 : ℝ) ≤ 63 / 50000 * Real.pi / 180 / 2 := by positivity
    have htpi : 63 / 50000 * Real.pi / 180 / 2 ≤ Real.pi := by nlinarith
    have htpi2 : 63 / 50000 * Real.pi / 180 / 2 ≤ Real.pi / 2 := by nlinarith
    have hsnn : 0 ≤ Real.sin (63 / 50000 * Real.pi / 180 / 2) :=
      Real.sin_nonneg_of_nonneg_of_le_pi ht0 htpi
    unfold haversineMeters toRad
    simp only []
    norm_num
    rw [Real.sqrt_sq hsnn, min_eq_right (Real.sin_le_one _),
      Real.arcsin_sin (by linarith) htpi2]
    ring
  refine ⟨fun pt => ⟨?_, ?_⟩, ⟨?_, ?_, ?_, ?_⟩, fun u d h => ?_⟩
  · show haversineMeters pt pt ≤ 140
    rw [hself]; norm_num
  · show (⌊haversineMeters pt pt + 1 / 2⌋ : ℤ) = 0
    rw [hself]; norm_num
  · rw [hval]; nlinarith [Real.pi_gt_d2]
  · rw [hval]; nlinarith [Real.pi_lt_d2]
  · show ¬ (haversineMeters _ _ ≤ 140)
    rw [hval]; push_neg; nlinarith [Real.pi_gt_d2]
  · show (⌊haversineMeters _ _ + 1 / 2⌋ : ℤ) = 140
    rw [hval, Int.floor_eq_iff]
    constructor
    · push_cast; nlinarith [Real.pi_gt_d2]
    · push_cast; nlinarith [Real.pi_lt_d2]
  · show ¬ (haversineMeters u d ≤ 140)
    linarith
